import Mathlib

/-!
A verification development for the WhatsApp bridge service.

The definitions below are a shallow embedding of the JavaScript sources:
* `MessageQueue` embeds `messageQueue.js` (`MessageQueue.enqueue` and the
  `MessageQueue.process` drain loop),
* `WhatsAppClient` embeds `client.js` (the session wrapper: `initialize`,
  `getClient`, `logout`, and the event reactions registered in `initialize`),
* `WebhookServer` embeds `webhookServer.js` (the `/health` and `/send-message`
  Express handlers),
* `MessageHandlers` embeds `handlers.js` (the inbound `message` listener and
  `_forwardToOrchestrator`).

External effects (the platform `sendMessage`, the media fetch, the HTTP POST
to the orchestrator) are passed in as oracle functions returning `Except`,
and every handler additionally returns the list of external calls it made,
so that theorems can speak about which operations were invoked.

JavaScript truthiness on string-valued fields (`!message.to`, `if (mediaUrl)`,
`if (mimetype)`) is embedded by `jsTruthy`: an absent field (`none`) and an
empty string (`some ""`) are both falsy, any other string is truthy.
-/

/-- JS truthiness of an optional string field: `undefined`/`null` and the
empty string are falsy, every other string is truthy. -/
def jsTruthy : Option String → Bool
  | none => false
  | some s => !(s == "")

namespace MessageQueue

/-- An item of `this.queue`, as built by `MessageQueue.enqueue`
(`messageQueue.js` lines 20–28).  The id is abstracted as a `Nat` supplied
by the caller (the source builds it from `Date.now()` and `Math.random()`). -/
structure QueueItem where
  id : Nat
  /-- the `to` field of the source (`to` is a Lean keyword) -/
  dest : String
  content : String
  metadata : List (String × String)
  timestamp : Nat
  attempts : Nat
  maxAttempts : Nat
deriving Repr, DecidableEq

/-- The argument object of `MessageQueue.enqueue`.  String fields are
optional because the JS caller may omit them. -/
structure OutMessage where
  /-- the `to` field of the source (`to` is a Lean keyword) -/
  dest : Option String
  content : Option String
  metadata : Option (List (String × String))
  maxAttempts : Option Nat
deriving Repr, DecidableEq

/-- `message.maxAttempts || 3`: an absent or zero (falsy) value defaults
to 3. -/
def defaultMaxAttempts : Option Nat → Nat
  | none => 3
  | some n => if n = 0 then 3 else n

/-- The message item object literal of `enqueue` (lines 20–28): `fresh`
stands for the generated id and `now` for `Date.now()`. -/
def mkQueueItem (fresh now : Nat) (m : OutMessage) : QueueItem :=
  { id := fresh
    dest := m.dest.getD ""
    content := m.content.getD ""
    metadata := m.metadata.getD []
    timestamp := now
    attempts := 0
    maxAttempts := defaultMaxAttempts m.maxAttempts }

/-- `MessageQueue.enqueue` (lines 15–38), restricted to its effect on the
queue: it throws (returns `.error`) when `!message.to || !message.content`,
leaving the queue untouched, and otherwise pushes the new item at the tail
and returns its id.  (The subsequent `process()` trigger is modelled
separately by `process`.) -/
def enqueue (fresh now : Nat) (q : List QueueItem) (m : OutMessage) :
    Except String Nat × List QueueItem :=
  if !jsTruthy m.dest || !jsTruthy m.content then
    (.error "Mensagem deve ter to e content", q)
  else
    (.ok fresh, q ++ [mkQueueItem fresh now m])

/-- Observable events of one run of the drain loop.  `attempt` records the
formatted destination of a `sendMessage` call together with the session
readiness at the moment of the call (the readiness is purely observational:
the loop body never reads it).  `sent` and `failedDrop` mark the
`onMessageSent` / `onMessageFailed` callbacks, `delay` the `_delay` pauses. -/
inductive DrainEvent where
  | attempt (itemId : Nat) (dest : String) (ready : Bool)
  | sent (itemId : Nat)
  | failedDrop (itemId : Nat) (attempts : Nat)
  | delay (ms : Nat)
deriving Repr, DecidableEq

/-- `${messageItem.to}@c.us` (line 51). -/
def fmtDest (d : String) : String := d ++ "@c.us"

/-- One iteration of the `while` body of `process` (lines 47–71) on head
`item`: `ok` is whether the awaited `sendMessage` resolves, `ready` the
session readiness at that moment (recorded in the `attempt` event only —
the source reads `isReady` nowhere inside the loop). -/
def drainStep (rate : Nat) (ok ready : Bool) (item : QueueItem)
    (rest : List QueueItem) : List DrainEvent × List QueueItem :=
  if ok then
    ([.attempt item.id (fmtDest item.dest) ready, .sent item.id, .delay rate], rest)
  else if item.attempts + 1 ≥ item.maxAttempts then
    ([.attempt item.id (fmtDest item.dest) ready, .failedDrop item.id (item.attempts + 1)], rest)
  else
    ([.attempt item.id (fmtDest item.dest) ready,
      .delay (rate * (item.attempts + 1))],
     { item with attempts := item.attempts + 1 } :: rest)

/-- Termination measure of the drain loop: each iteration either pops the
head or strictly increases its `attempts` below `maxAttempts`. -/
def drainMeasure (q : List QueueItem) : Nat :=
  (q.map (fun it => it.maxAttempts - it.attempts + 1)).sum

/-- The `while (this.queue.length > 0)` loop of `process` (lines 47–71).
`ok i` is the outcome of the `sendMessage` awaited at iteration `i`, and
`ready i` the session readiness at that iteration (observational only: the
loop never re-checks `isReady` after `process` entry). -/
def drainLoop (rate : Nat) (ok ready : Nat → Bool) (i : Nat) :
    List QueueItem → List DrainEvent
  | [] => []
  | item :: rest =>
    if ok i then
      .attempt item.id (fmtDest item.dest) (ready i) :: .sent item.id ::
        .delay rate :: drainLoop rate ok ready (i + 1) rest
    else if item.attempts + 1 ≥ item.maxAttempts then
      .attempt item.id (fmtDest item.dest) (ready i) ::
        .failedDrop item.id (item.attempts + 1) :: drainLoop rate ok ready (i + 1) rest
    else
      .attempt item.id (fmtDest item.dest) (ready i) ::
        .delay (rate * (item.attempts + 1)) ::
        drainLoop rate ok ready (i + 1) ({ item with attempts := item.attempts + 1 } :: rest)
termination_by q => drainMeasure q
decreasing_by
  · simp only [drainMeasure, List.map_cons, List.sum_cons]
    omega
  · simp only [drainMeasure, List.map_cons, List.sum_cons]
    omega
  · simp only [drainMeasure, List.map_cons, List.sum_cons]
    omega

/-- `MessageQueue.process` (lines 40–74): it returns immediately when
`isProcessing` is set, the queue is empty, or `!this.client?.isReady`
(readiness at entry); otherwise it drains the whole queue.  Returns the
events of the run together with the final queue. -/
def process (rate : Nat) (readyAtEntry isProcessing : Bool)
    (ok ready : Nat → Bool) (q : List QueueItem) :
    List DrainEvent × List QueueItem :=
  if isProcessing || q.isEmpty || !readyAtEntry then ([], q)
  else (drainLoop rate ok ready 0 q, [])

/-- The ids of the successfully dispatched items, in trace order. -/
def sentIds (tr : List DrainEvent) : List Nat :=
  tr.filterMap fun e =>
    match e with
    | .sent id => some id
    | _ => none

/-- The pauses of a trace, in order. -/
def delaysOf (tr : List DrainEvent) : List Nat :=
  tr.filterMap fun e =>
    match e with
    | .delay ms => some ms
    | _ => none

/-- How many `sendMessage` attempts a trace makes for the item `id`. -/
def attemptCount (id : Nat) (tr : List DrainEvent) : Nat :=
  (tr.filter fun e =>
    match e with
    | .attempt j _ _ => j == id
    | _ => false).length

/-- How many times a trace invokes the failure callback for the item `id`. -/
def dropCount (id : Nat) (tr : List DrainEvent) : Nat :=
  (tr.filter fun e =>
    match e with
    | .failedDrop j _ => j == id
    | _ => false).length

/-- Erase the observational readiness tag of `attempt` events, leaving the
behavioural content of a trace. -/
def setReadyTag : DrainEvent → DrainEvent
  | .attempt id d _ => .attempt id d true
  | e => e

/-- Closed form of a drain run in which every send succeeds: each item
contributes one attempt, one success callback and one rate-limit pause, in
queue order. -/
def successTrace (rate : Nat) (ready : Nat → Bool) (i : Nat) :
    List QueueItem → List DrainEvent
  | [] => []
  | item :: rest =>
    .attempt item.id (fmtDest item.dest) (ready i) :: .sent item.id ::
      .delay rate :: successTrace rate ready (i + 1) rest

/-- Closed form of the events an always-failing head item generates when its
`attempts` counter stands at `a` with `d` retries left before exhaustion
(`maxAttempts = a + d + 1`): `d` non-final failures, each pausing
`rate * attempts`, then the final failure and the drop callback. -/
def failTrace (rate : Nat) (ready : Nat → Bool) (id : Nat) (dest : String)
    (i a : Nat) : Nat → List DrainEvent
  | 0 => [.attempt id dest (ready i), .failedDrop id (a + 1)]
  | d + 1 =>
    .attempt id dest (ready i) :: .delay (rate * (a + 1)) ::
      failTrace rate ready id dest (i + 1) (a + 1) d

/-- The queue contents reachable in the program: initially empty, grown by
`enqueue`, and rewritten one drain-loop iteration (`drainStep`) at a time. -/
inductive QueueEvolves : List QueueItem → Prop where
  | init : QueueEvolves []
  | enq (fresh now : Nat) (m : OutMessage) (q : List QueueItem) :
      QueueEvolves q → QueueEvolves (enqueue fresh now q m).2
  | drain (rate : Nat) (ok ready : Bool) (item : QueueItem) (rest : List QueueItem) :
      QueueEvolves (item :: rest) → QueueEvolves (drainStep rate ok ready item rest).2

end MessageQueue

namespace WhatsAppClient

/-- The underlying `whatsapp-web.js` client handle.  Its `info` property is
what `webhookServer.js` reads for `/health`.  Modelled from the spec: the
external library populates `info` when the session reaches Ready; the
repository itself never writes it. -/
structure RawClient where
  info : Option Nat
deriving Repr, DecidableEq

/-- The mutable fields of the `WhatsAppClient` wrapper (`client.js`):
`this.client` (the handle, `null` until `initialize` runs) and
`this.isReady`. -/
structure WAState where
  client : Option RawClient
  isReady : Bool
deriving Repr, DecidableEq

/-- The state right after the constructor: `this.client = null`,
`this.isReady = false`. -/
def initialState : WAState := { client := none, isReady := false }

/-- The synchronous prefix of `initialize()` (lines 111–122): a no-op when
`this.client` is already set, otherwise it creates the client handle.
Readiness is untouched — only the later `ready` event sets it. -/
def initializeStart (s : WAState) : WAState :=
  if s.client.isSome then s else { s with client := some { info := none } }

/-- The platform events `initialize()` registers reactions for
(lines 124–151). -/
inductive WAEvent where
  | qr
  | readyEv
  | authenticated
  | disconnected
  | clientError
deriving Repr, DecidableEq

/-- The event reactions registered in `initialize()`: `ready` sets
`this.isReady = true` (and the external client populates its `info`),
`disconnected` sets `this.isReady = false`; `qr`, `authenticated` and
`error` only log / reject the initialization outcome.  Events can only
fire once a client handle exists (the listeners live on `this.client`). -/
def applyEvent (s : WAState) (e : WAEvent) : WAState :=
  if s.client.isSome then
    match e with
    | .readyEv => { client := some { info := some 0 }, isReady := true }
    | .disconnected => { s with isReady := false }
    | _ => s
  else s

/-- `getClient()` (lines 154–159): throws when `this.client` is unset,
otherwise returns the handle. -/
def getClient (s : WAState) : Except String RawClient :=
  match s.client with
  | none => .error "Cliente nao inicializado. Chame initialize() primeiro."
  | some c => .ok c

/-- `logout()` (lines 161–167): when a client exists, ends the session,
clears the handle and marks not-ready; otherwise a no-op. -/
def logout (s : WAState) : WAState :=
  if s.client.isSome then { client := none, isReady := false } else s

/-- One step of the session lifecycle: the start of `initialize()`, a
platform event, or `logout()`. -/
inductive LifeStep where
  | initStep
  | evStep (e : WAEvent)
  | logoutStep
deriving Repr, DecidableEq

/-- Apply one lifecycle step. -/
def applyLife (s : WAState) : LifeStep → WAState
  | .initStep => initializeStart s
  | .evStep e => applyEvent s e
  | .logoutStep => logout s

/-- The wrapper state after a sequence of lifecycle steps from the
constructor state. -/
def runLife (steps : List LifeStep) : WAState :=
  steps.foldl applyLife initialState

/-- The external client handle evolving under platform events alone:
only `ready` populates `info` (modelled from the spec; `disconnected`
does not clear it, and the repository never writes it). -/
def applyRawEvent (c : RawClient) (e : WAEvent) : RawClient :=
  match e with
  | .readyEv => { info := some 0 }
  | _ => c

/-- The raw client after a sequence of platform events, starting from a
freshly constructed handle (`info` unset). -/
def runRaw (events : List WAEvent) : RawClient :=
  events.foldl applyRawEvent { info := none }

end WhatsAppClient

namespace WebhookServer

/-- The body of a `POST /send-message` request
(`webhookServer.js` line 15). -/
structure SendRequest where
  chatId : Option String
  message : Option String
  mediaUrl : Option String
  mimetype : Option String
deriving Repr, DecidableEq

/-- A `MessageMedia` value as produced by `MessageMedia.fromUrl`: the
mimetype detected from the fetch, and an opaque reference to the fetched
bytes. -/
structure Media where
  mimetype : String
  dataRef : String
deriving Repr, DecidableEq

/-- The second argument of `whatsappClient.sendMessage`:
`media || message`. -/
inductive SendContent where
  | mediaContent (m : Media)
  | text (s : String)
deriving Repr, DecidableEq

/-- The external operations the `/send-message` handler can invoke. -/
inductive PlatformCall where
  | fetchMedia (url : String) (unsafeMime : Bool)
  | send (chatId : String) (content : SendContent) (caption : Option String)
deriving Repr, DecidableEq

/-- The JSON response of the `/send-message` handler. -/
structure WebResponse where
  status : Nat
  success : Bool
  messageId : Option String
  error : Option String
deriving Repr, DecidableEq

/-- `if (mimetype) media.mimetype = mimetype;` (`webhookServer.js`
lines 26–28): a truthy explicitly supplied mimetype overwrites the one the
fetch detected. -/
def mediaSent (req : SendRequest) (m0 : Media) : Media :=
  if jsTruthy req.mimetype then { m0 with mimetype := req.mimetype.getD "" } else m0

/-- The `POST /send-message` Express handler (`webhookServer.js`
lines 14–39).  `fetch url unsafeMime` is the oracle for
`MessageMedia.fromUrl(url, { unsafeMime })` and `send chatId content caption`
the oracle for `whatsappClient.sendMessage` (returning the provider message
id `msg.id.id`).  Returns the response together with the list of external
calls made. -/
def sendMessageHandler (fetch : String → Bool → Except String Media)
    (send : String → SendContent → Option String → Except String String)
    (req : SendRequest) : WebResponse × List PlatformCall :=
  if !jsTruthy req.chatId || !jsTruthy req.message then
    ({ status := 400, success := false, messageId := none,
       error := some "Parametros chatId e message sao obrigatorios." }, [])
  else
    let chat := req.chatId.getD ""
    let message := req.message.getD ""
    if jsTruthy req.mediaUrl then
      let url := req.mediaUrl.getD ""
      let unsafeMime := req.mimetype.isSome
      match fetch url unsafeMime with
      | .error e =>
        ({ status := 500, success := false, messageId := none, error := some e },
         [.fetchMedia url unsafeMime])
      | .ok m0 =>
        let m := mediaSent req m0
        match send chat (.mediaContent m) (some message) with
        | .ok mid =>
          ({ status := 200, success := true, messageId := some mid, error := none },
           [.fetchMedia url unsafeMime, .send chat (.mediaContent m) (some message)])
        | .error e =>
          ({ status := 500, success := false, messageId := none, error := some e },
           [.fetchMedia url unsafeMime, .send chat (.mediaContent m) (some message)])
    else
      match send chat (.text message) none with
      | .ok mid =>
        ({ status := 200, success := true, messageId := some mid, error := none },
         [.send chat (.text message) none])
      | .error e =>
        ({ status := 500, success := false, messageId := none, error := some e },
         [.send chat (.text message) none])

/-- The outcome of the direct send path of the try-block: the fetch error
when the media fetch rejects, otherwise the result of the single
`sendMessage` the handler awaits. -/
def directSendResult (fetch : String → Bool → Except String Media)
    (send : String → SendContent → Option String → Except String String)
    (req : SendRequest) : Except String String :=
  if jsTruthy req.mediaUrl then
    match fetch (req.mediaUrl.getD "") req.mimetype.isSome with
    | .error e => .error e
    | .ok m0 =>
      send (req.chatId.getD "") (.mediaContent (mediaSent req m0)) (some (req.message.getD ""))
  else
    send (req.chatId.getD "") (.text (req.message.getD "")) none

/-- The `GET /health` response body (`webhookServer.js` lines 9–11). -/
structure HealthResponse where
  status : Nat
  bodyStatus : String
  isReady : Bool
deriving Repr, DecidableEq

/-- The `GET /health` Express handler: always `200` with
`{ status: "ok", isReady: whatsappClient.info != null }`.  It returns the
(unchanged) client alongside the response, making its absence of side
effects explicit. -/
def healthHandler (c : WhatsAppClient.RawClient) :
    HealthResponse × WhatsAppClient.RawClient :=
  ({ status := 200, bodyStatus := "ok", isReady := c.info.isSome }, c)

end WebhookServer

namespace MessageHandlers

/-- The fields of a platform message event that `handlers.js` reads. -/
structure InboundMsg where
  messageId : String
  /-- the `from` field of the source (`from` is a Lean keyword) -/
  sender : String
  /-- the `to` field of the source (`to` is a Lean keyword) -/
  recipient : String
  author : Option String
  body : String
  msgType : String
  timestamp : Nat
  hasMedia : Bool
  mimetype : Option String
  filename : Option String
deriving Repr, DecidableEq

/-- The fields of `msg.getContact()` that the handler reads. -/
structure Contact where
  serializedId : String
  name : Option String
  pushname : Option String
  shortName : Option String
  isMe : Bool
  isUser : Bool
  isGroup : Bool
deriving Repr, DecidableEq

/-- The fields of `msg.getChat()` that the handler reads. -/
structure Chat where
  isGroup : Bool
deriving Repr, DecidableEq

/-- The `sender` object of the forwarded payload
(`handlers.js` lines 204–211). -/
structure SenderInfo where
  id : String
  name : Option String
  shortName : Option String
  isMe : Bool
  isUser : Bool
  isGroup : Bool
deriving Repr, DecidableEq

/-- The media stub attached when `msg.hasMedia` (lines 215–221): only a
descriptor, never the binary payload. -/
structure MediaStub where
  mimetype : Option String
  filename : Option String
deriving Repr, DecidableEq

/-- The payload POSTed to the orchestrator (lines 195–221). -/
structure Payload where
  messageId : String
  sender : String
  recipient : String
  author : Option String
  body : String
  msgType : String
  timestamp : Nat
  isGroup : Bool
  senderInfo : SenderInfo
  media : Option MediaStub
deriving Repr, DecidableEq

/-- `contact.name || contact.pushname` (JS truthiness: an empty or absent
`name` falls back to `pushname`). -/
def nameOrPushname (c : Contact) : Option String :=
  if jsTruthy c.name then c.name else c.pushname

/-- The payload assembly of the message listener (lines 195–221). -/
def buildPayload (msg : InboundMsg) (contact : Contact) (chat : Chat) : Payload :=
  { messageId := msg.messageId
    sender := msg.sender
    recipient := msg.recipient
    author := msg.author
    body := msg.body
    msgType := msg.msgType
    timestamp := msg.timestamp
    isGroup := chat.isGroup
    senderInfo :=
      { id := contact.serializedId
        name := nameOrPushname contact
        shortName := contact.shortName
        isMe := contact.isMe
        isUser := contact.isUser
        isGroup := contact.isGroup }
    media := if msg.hasMedia then some { mimetype := msg.mimetype, filename := msg.filename }
             else none }

/-- An HTTP POST to the orchestrator. -/
inductive ForwardEffect where
  | post (url : String) (p : Payload)
deriving Repr, DecidableEq

/-- `_forwardToOrchestrator` (lines 242–254): a silent no-op when
`this.orchestratorUrl` is falsy; otherwise it POSTs the payload, and any
failure of the POST (`postOutcome = .error`) is caught and only logged.
Returns the POSTs performed and the error propagated to the caller
(always `none`: the function never throws). -/
def forwardToOrchestrator (orchestratorUrl : Option String)
    (postOutcome : Except String Unit) (p : Payload) :
    List ForwardEffect × Option String :=
  if !jsTruthy orchestratorUrl then ([], none)
  else
    match postOutcome with
    | .ok _ => ([.post (orchestratorUrl.getD "") p], none)
    | .error _ => ([.post (orchestratorUrl.getD "") p], none)

/-- The `message` listener registered by `setup` (lines 185–231): status
and call-log events are discarded; otherwise the payload is assembled and
forwarded.  (The listener wraps its body in try/catch, so it never
propagates an error either.) -/
def onMessage (orchestratorUrl : Option String) (postOutcome : Except String Unit)
    (msg : InboundMsg) (contact : Contact) (chat : Chat) :
    List ForwardEffect × Option String :=
  if msg.msgType == "e2e_notification" || msg.msgType == "call_log" then ([], none)
  else forwardToOrchestrator orchestratorUrl postOutcome (buildPayload msg contact chat)

end MessageHandlers

section Theorems

open MessageQueue WhatsAppClient WebhookServer MessageHandlers

/-- `info` after a run of platform events is populated exactly when the
`ready` event has fired. -/
theorem runRaw_info (es : List WAEvent) :
    ∀ c : WhatsAppClient.RawClient,
      ((es.foldl applyRawEvent c).info).isSome =
        (c.info.isSome || decide (WAEvent.readyEv ∈ es)) := by
  induction es with
  | nil => intro c; simp
  | cons e es ih =>
    intro c
    cases e <;> simp [applyRawEvent, ih, List.mem_cons]

/-- **C10**: when no orchestrator URL is configured, processing an inbound
message event performs no HTTP forward and raises no error — both the
message listener and `_forwardToOrchestrator` are silent no-ops. -/
theorem c10_missing_orchestrator_url_silent (postOutcome : Except String Unit)
    (msg : InboundMsg) (contact : Contact) (chat : Chat) (p : Payload) :
    onMessage none postOutcome msg contact chat = ([], none) ∧
    forwardToOrchestrator none postOutcome p = ([], none) := by
  constructor
  · unfold onMessage
    split
    · rfl
    · simp [forwardToOrchestrator, jsTruthy]
  · simp [forwardToOrchestrator, jsTruthy]

/-- **C9**: `GET /health` always answers `200 {status:"ok", isReady}`,
where `isReady` is false before the session reaches Ready and true once the
`ready` event has fired; the handler leaves the client untouched. -/
theorem c9_health_endpoint (events : List WAEvent) :
    (healthHandler (runRaw events)).1.status = 200 ∧
    (healthHandler (runRaw events)).1.bodyStatus = "ok" ∧
    ((healthHandler (runRaw events)).1.isReady = true ↔ WAEvent.readyEv ∈ events) ∧
    (healthHandler (runRaw events)).2 = runRaw events := by
  refine ⟨rfl, rfl, ?_, rfl⟩
  simp [healthHandler, runRaw, runRaw_info]

/-- The wrapper invariant "ready implies a client handle exists" is
preserved along every lifecycle. -/
theorem runLife_ready_client (steps : List LifeStep) :
    ∀ s : WAState, (s.isReady = true → s.client.isSome) →
      ((steps.foldl applyLife s).isReady = true →
        (steps.foldl applyLife s).client.isSome) := by
  induction steps with
  | nil => intro s h; exact h
  | cons l ls ih =>
    intro s h
    simp only [List.foldl_cons]
    apply ih
    cases l with
    | initStep =>
      simp only [applyLife, initializeStart]
      by_cases hc : s.client.isSome = true
      · rw [if_pos hc]; exact h
      · rw [if_neg hc]; intro _; rfl
    | evStep e =>
      simp only [applyLife, applyEvent]
      by_cases hc : s.client.isSome = true
      · rw [if_pos hc]
        cases e with
        | readyEv => intro _; rfl
        | disconnected => intro h2; simp at h2
        | qr => exact h
        | authenticated => exact h
        | clientError => exact h
      · rw [if_neg hc]; exact h
    | logoutStep =>
      simp only [applyLife, logout]
      by_cases hc : s.client.isSome = true
      · rw [if_pos hc]; intro h2; simp at h2
      · rw [if_neg hc]; exact h

/-- **C6 (counterexample)**: the claim "getClient fails with
NotInitializedError whenever invoked before the session reaches Ready" is
false: after `initialize()` has started but before any `ready` event, a
handle exists and `getClient` returns it. -/
theorem c6_counterexample :
    ¬ (∀ steps : List LifeStep, LifeStep.evStep WAEvent.readyEv ∉ steps →
        ∃ msg, getClient (runLife steps) = .error msg) := by
  intro h
  obtain ⟨msg, hm⟩ := h [.initStep] (by decide)
  have hok : getClient (runLife [LifeStep.initStep]) = .ok { info := none } := rfl
  rw [hok] at hm
  exact Except.noConfusion hm

/-- **C6 (amended)**: `getClient` is guarded by handle existence, not
readiness: it returns the live handle whenever one exists (which is the
case from the start of `initialize()` until `logout`), fails with the
NotInitializedError message exactly when no handle exists, and in
particular returns the handle in every reachable Ready state. -/
theorem c6_getClient_guarded_by_handle (steps : List LifeStep) :
    (∀ c, (runLife steps).client = some c → getClient (runLife steps) = .ok c) ∧
    ((runLife steps).client = none →
      getClient (runLife steps) =
        .error "Cliente nao inicializado. Chame initialize() primeiro.") ∧
    ((runLife steps).isReady = true → ∃ c, getClient (runLife steps) = .ok c) := by
  refine ⟨?_, ?_, ?_⟩
  · intro c hc; simp [getClient, hc]
  · intro hc; simp [getClient, hc]
  · intro hr
    have hs : (runLife steps).client.isSome := by
      have := runLife_ready_client steps initialState (by simp [initialState])
      exact this hr
    obtain ⟨c, hc⟩ := Option.isSome_iff_exists.mp hs
    exact ⟨c, by simp [getClient, hc]⟩

/-- Witness for `c6_getClient_guarded_by_handle`: after initialize and the
ready event the handle is returned; on the fresh state the error is
raised. -/
theorem c6_witness :
    getClient (runLife [LifeStep.initStep, LifeStep.evStep WAEvent.readyEv]) =
      .ok { info := some 0 } ∧
    getClient (runLife []) =
      .error "Cliente nao inicializado. Chame initialize() primeiro." := by
  constructor
  · exact (c6_getClient_guarded_by_handle
      [LifeStep.initStep, LifeStep.evStep WAEvent.readyEv]).1 { info := some 0 } (by decide)
  · exact (c6_getClient_guarded_by_handle []).2.1 (by decide)

/-- **C7 (counterexample)**: the claim "for every request with both chatId
and message present the server executes the direct send" is false: a
request whose chatId is present but empty is rejected with 400 (JS
truthiness), no platform operation invoked. -/
theorem c7_counterexample :
    ¬ (∀ (fetch : String → Bool → Except String Media)
        (send : String → SendContent → Option String → Except String String)
        (req : SendRequest), req.chatId ≠ none → req.message ≠ none →
        (sendMessageHandler fetch send req).1.status ≠ 400) := by
  intro h
  exact h (fun _ _ => .error "e") (fun _ _ _ => .ok "MID")
    ⟨some "", some "oi", none, none⟩ (by simp) (by simp) rfl

/-- **C7 (amended)**: a `POST /send-message` request whose chatId or
message is absent or empty is answered 400 with no platform operation
invoked; when both are non-empty the handler runs the direct send path,
answering 200 with the provider message id when it succeeds and a 500
structured error when it fails, and always performing at least one
platform call. -/
theorem c7_send_message_endpoint (fetch : String → Bool → Except String Media)
    (send : String → SendContent → Option String → Except String String)
    (req : SendRequest) :
    ((jsTruthy req.chatId = false ∨ jsTruthy req.message = false) →
      sendMessageHandler fetch send req =
        ({ status := 400, success := false, messageId := none,
           error := some "Parametros chatId e message sao obrigatorios." }, [])) ∧
    (jsTruthy req.chatId = true → jsTruthy req.message = true →
      (∀ mid, directSendResult fetch send req = .ok mid →
        (sendMessageHandler fetch send req).1 =
          { status := 200, success := true, messageId := some mid, error := none }) ∧
      (∀ e, directSendResult fetch send req = .error e →
        (sendMessageHandler fetch send req).1 =
          { status := 500, success := false, messageId := none, error := some e }) ∧
      (sendMessageHandler fetch send req).2 ≠ []) := by
  constructor
  · intro h
    rcases h with h | h <;> simp [sendMessageHandler, h]
  · intro h1 h2
    by_cases hm : jsTruthy req.mediaUrl = true
    · cases hf : fetch (req.mediaUrl.getD "") req.mimetype.isSome with
      | error e0 =>
        refine ⟨?_, ?_, ?_⟩
        · intro mid hmid
          simp [directSendResult, hm, hf] at hmid
        · intro e he
          simp [directSendResult, hm, hf] at he
          subst he
          simp [sendMessageHandler, h1, h2, hm, hf]
        · simp [sendMessageHandler, h1, h2, hm, hf]
      | ok m0 =>
        cases hs : send (req.chatId.getD "") (.mediaContent (mediaSent req m0))
            (some (req.message.getD "")) with
        | ok mid0 =>
          refine ⟨?_, ?_, ?_⟩
          · intro mid hmid
            simp [directSendResult, hm, hf, hs] at hmid
            subst hmid
            simp [sendMessageHandler, h1, h2, hm, hf, hs]
          · intro e he
            simp [directSendResult, hm, hf, hs] at he
          · simp [sendMessageHandler, h1, h2, hm, hf, hs]
        | error e0 =>
          refine ⟨?_, ?_, ?_⟩
          · intro mid hmid
            simp [directSendResult, hm, hf, hs] at hmid
          · intro e he
            simp [directSendResult, hm, hf, hs] at he
            subst he
            simp [sendMessageHandler, h1, h2, hm, hf, hs]
          · simp [sendMessageHandler, h1, h2, hm, hf, hs]
    · cases hs : send (req.chatId.getD "") (.text (req.message.getD "")) none with
      | ok mid0 =>
        refine ⟨?_, ?_, ?_⟩
        · intro mid hmid
          simp [directSendResult, hm, hs] at hmid
          subst hmid
          simp [sendMessageHandler, h1, h2, hm, hs]
        · intro e he
          simp [directSendResult, hm, hs] at he
        · simp [sendMessageHandler, h1, h2, hm, hs]
      | error e0 =>
        refine ⟨?_, ?_, ?_⟩
        · intro mid hmid
          simp [directSendResult, hm, hs] at hmid
        · intro e he
          simp [directSendResult, hm, hs] at he
          subst he
          simp [sendMessageHandler, h1, h2, hm, hs]
        · simp [sendMessageHandler, h1, h2, hm, hs]

/-- Witness for `c7_send_message_endpoint`: a valid text-only request with
a succeeding send is answered 200 with the provider id. -/
theorem c7_witness :
    (sendMessageHandler (fun _ _ => .error "x") (fun _ _ _ => .ok "MID")
        ⟨some "123", some "oi", none, none⟩).1 =
      { status := 200, success := true, messageId := some "MID", error := none } :=
  ((c7_send_message_endpoint (fun _ _ => .error "x") (fun _ _ _ => .ok "MID")
      ⟨some "123", some "oi", none, none⟩).2 rfl rfl).1 "MID" rfl

/-- **C8 (counterexample)**: both halves of the claim fail on JS-falsy
strings: a present-but-empty mediaUrl triggers no fetch at all, and a
present-but-empty mimetype does not replace the detected one. -/
theorem c8_counterexample :
    (¬ (∀ (fetch : String → Bool → Except String Media)
         (send : String → SendContent → Option String → Except String String)
         (req : SendRequest), jsTruthy req.chatId = true → jsTruthy req.message = true →
         req.mediaUrl ≠ none →
         ∃ u b, PlatformCall.fetchMedia u b ∈ (sendMessageHandler fetch send req).2)) ∧
    (¬ (∀ (fetch : String → Bool → Except String Media)
         (send : String → SendContent → Option String → Except String String)
         (req : SendRequest) (m0 : Media), jsTruthy req.chatId = true →
         jsTruthy req.message = true → req.mimetype ≠ none →
         jsTruthy req.mediaUrl = true →
         fetch (req.mediaUrl.getD "") req.mimetype.isSome = .ok m0 →
         ∀ c m cap, PlatformCall.send c (.mediaContent m) cap ∈
             (sendMessageHandler fetch send req).2 →
           m.mimetype = req.mimetype.getD "")) := by
  constructor
  · intro h
    obtain ⟨u, b, hmem⟩ := h (fun _ _ => .ok ⟨"image/png", "D"⟩) (fun _ _ _ => .ok "M")
      ⟨some "1", some "oi", some "", none⟩ rfl rfl (by simp)
    have hcalls : (sendMessageHandler (fun _ _ => .ok ⟨"image/png", "D"⟩)
        (fun _ _ _ => .ok "M") ⟨some "1", some "oi", some "", none⟩).2 =
        [.send "1" (.text "oi") none] := rfl
    rw [hcalls] at hmem
    simp at hmem
  · intro h
    have := h (fun _ _ => .ok ⟨"image/png", "D"⟩) (fun _ _ _ => .ok "M")
      ⟨some "1", some "oi", some "u", some ""⟩ ⟨"image/png", "D"⟩ rfl rfl (by simp) rfl rfl
      "1" ⟨"image/png", "D"⟩ (some "oi") (by decide)
    exact absurd this (by decide)

/-- **C8 (amended)**: for a valid request, a non-empty mediaUrl makes the
handler fetch the resource and send the (possibly mimetype-overridden)
attachment with the message text as caption; a non-empty explicit mimetype
replaces the detected one, an absent or empty one leaves it unchanged; an
absent or empty mediaUrl sends the text directly with no caption. -/
theorem c8_media_attachment (fetch : String → Bool → Except String Media)
    (send : String → SendContent → Option String → Except String String)
    (req : SendRequest)
    (h1 : jsTruthy req.chatId = true) (h2 : jsTruthy req.message = true) :
    (jsTruthy req.mediaUrl = true →
      ∀ m0, fetch (req.mediaUrl.getD "") req.mimetype.isSome = .ok m0 →
        (sendMessageHandler fetch send req).2 =
          [.fetchMedia (req.mediaUrl.getD "") req.mimetype.isSome,
           .send (req.chatId.getD "") (.mediaContent (mediaSent req m0))
             (some (req.message.getD ""))] ∧
        (jsTruthy req.mimetype = true →
          (mediaSent req m0).mimetype = req.mimetype.getD "") ∧
        (jsTruthy req.mimetype = false → mediaSent req m0 = m0)) ∧
    (jsTruthy req.mediaUrl = false →
      (sendMessageHandler fetch send req).2 =
        [.send (req.chatId.getD "") (.text (req.message.getD "")) none]) := by
  constructor
  · intro hm m0 hf
    refine ⟨?_, ?_, ?_⟩
    · cases hs : send (req.chatId.getD "") (.mediaContent (mediaSent req m0))
          (some (req.message.getD "")) <;>
        simp [sendMessageHandler, h1, h2, hm, hf, hs]
    · intro ht; simp [mediaSent, ht]
    · intro ht; simp [mediaSent, ht]
  · intro hm
    cases hs : send (req.chatId.getD "") (.text (req.message.getD "")) none <;>
      simp [sendMessageHandler, h1, h2, hm, hs]

/-- Witness for `c8_media_attachment`: a request with a media URL and an
explicit mimetype fetches the media and sends it with the overridden
mimetype and the message text as caption. -/
theorem c8_witness :
    (sendMessageHandler (fun _ _ => .ok ⟨"image/png", "D"⟩) (fun _ _ _ => .ok "M")
        ⟨some "1", some "oi", some "u", some "video/mp4"⟩).2 =
      [.fetchMedia "u" true,
       .send "1" (.mediaContent ⟨"video/mp4", "D"⟩) (some "oi")] :=
  ((c8_media_attachment (fun _ _ => .ok ⟨"image/png", "D"⟩) (fun _ _ _ => .ok "M")
      ⟨some "1", some "oi", some "u", some "video/mp4"⟩ rfl rfl).1 rfl
    ⟨"image/png", "D"⟩ rfl).1

/-- When every send succeeds the drain loop produces exactly the
closed-form success trace. -/
theorem drainLoop_allOk (rate : Nat) (ok ready : Nat → Bool)
    (hok : ∀ j, ok j = true) :
    ∀ (q : List QueueItem) (i : Nat),
      drainLoop rate ok ready i q = successTrace rate ready i q := by
  intro q
  induction q with
  | nil => intro i; simp [drainLoop, successTrace]
  | cons item rest ih => intro i; simp [drainLoop, successTrace, hok i, ih]

/-- In an all-success trace the success callbacks fire once per item, in
queue order. -/
theorem sentIds_successTrace (rate : Nat) (ready : Nat → Bool) :
    ∀ (q : List QueueItem) (i : Nat),
      sentIds (successTrace rate ready i q) = q.map (fun it => it.id) := by
  intro q
  induction q with
  | nil => intro i; simp [successTrace, sentIds]
  | cons item rest ih =>
    intro i
    simp only [successTrace, sentIds, List.filterMap_cons, List.map_cons]
    simpa [sentIds] using ih (i + 1)

/-- In an all-success trace every pause is the configured rate-limit
delay, one after each completed send. -/
theorem delaysOf_successTrace (rate : Nat) (ready : Nat → Bool) :
    ∀ (q : List QueueItem) (i : Nat),
      delaysOf (successTrace rate ready i q) = q.map (fun _ => rate) := by
  intro q
  induction q with
  | nil => intro i; simp [successTrace, delaysOf]
  | cons item rest ih =>
    intro i
    simp only [successTrace, delaysOf, List.filterMap_cons, List.map_cons]
    simpa [delaysOf] using ih (i + 1)

/-- **C4**: with the session ready at entry and every send succeeding, the
drain dispatches the queued items one at a time in exact FIFO order —
the trace is attempt/success/pause per item, the success callbacks fire in
queue order, and a full rate-limit pause separates consecutive completed
sends. -/
theorem c4_fifo_serialized (rate : Nat) (ok ready : Nat → Bool)
    (q : List QueueItem) (hok : ∀ j, ok j = true) :
    process rate true false ok ready q = (successTrace rate ready 0 q, []) ∧
    sentIds (successTrace rate ready 0 q) = q.map (fun it => it.id) ∧
    delaysOf (successTrace rate ready 0 q) = q.map (fun _ => rate) := by
  refine ⟨?_, sentIds_successTrace rate ready q 0, delaysOf_successTrace rate ready q 0⟩
  cases q with
  | nil => simp [process, successTrace]
  | cons item rest => simp [process, drainLoop_allOk rate ok ready hok]

/-- Witness for `c4_fifo_serialized` on a two-item queue. -/
theorem c4_witness :
    process 8000 true false (fun _ => true) (fun _ => true)
        [⟨1, "a", "x", [], 0, 0, 3⟩, ⟨2, "b", "y", [], 0, 0, 3⟩] =
      (successTrace 8000 (fun _ => true) 0
        [⟨1, "a", "x", [], 0, 0, 3⟩, ⟨2, "b", "y", [], 0, 0, 3⟩], []) ∧
    sentIds (successTrace 8000 (fun _ => true) 0
        [⟨1, "a", "x", [], 0, 0, 3⟩, ⟨2, "b", "y", [], 0, 0, 3⟩]) = [1, 2] ∧
    delaysOf (successTrace 8000 (fun _ => true) 0
        [⟨1, "a", "x", [], 0, 0, 3⟩, ⟨2, "b", "y", [], 0, 0, 3⟩]) = [8000, 8000] :=
  c4_fifo_serialized 8000 (fun _ => true) (fun _ => true)
    [⟨1, "a", "x", [], 0, 0, 3⟩, ⟨2, "b", "y", [], 0, 0, 3⟩] (fun _ => rfl)

/-- **C1 (counterexample)**: the claim "queued sends are attempted only
while the session is Ready" is false: once a drain run has started it
never re-reads readiness, so a readiness loss after the first iteration
does not stop the second send attempt. -/
theorem c1_counterexample :
    ¬ (∀ (rate : Nat) (ok ready : Nat → Bool) (q : List QueueItem) (ip : Bool),
        ready 0 = true →
        ∀ id d r, DrainEvent.attempt id d r ∈ (process rate true ip ok ready q).1 →
          r = true) := by
  intro h
  have hmem : DrainEvent.attempt 2 (fmtDest "b") false ∈
      (process 5 true false (fun _ => true) (fun j => j == 0)
        [⟨1, "a", "x", [], 0, 0, 3⟩, ⟨2, "b", "y", [], 0, 0, 3⟩]).1 := by
    simp [process, drainLoop]
  exact absurd
    (h 5 (fun _ => true) (fun j => j == 0)
      [⟨1, "a", "x", [], 0, 0, 3⟩, ⟨2, "b", "y", [], 0, 0, 3⟩] false rfl
      2 (fmtDest "b") false hmem)
    (by decide)

set_option maxRecDepth 4000 in
/-- The behaviour of a drain run does not depend on readiness after entry:
traces under two readiness histories agree once the observational tag is
erased. -/
theorem drainLoop_ready_irrelevant (rate : Nat) (ok ready1 ready2 : Nat → Bool) :
    ∀ (n : Nat) (q : List QueueItem) (i : Nat), drainMeasure q ≤ n →
      (drainLoop rate ok ready1 i q).map setReadyTag =
      (drainLoop rate ok ready2 i q).map setReadyTag := by
  intro n
  induction n with
  | zero =>
    intro q i h
    cases q with
    | nil => simp [drainLoop]
    | cons item rest =>
      exfalso
      simp only [drainMeasure, List.map_cons, List.sum_cons] at h
      omega
  | succ n ih =>
    intro q i h
    cases q with
    | nil => simp [drainLoop]
    | cons item rest =>
      rw [drainLoop.eq_2 rate ok ready1 i item rest, drainLoop.eq_2 rate ok ready2 i item rest]
      by_cases hok : ok i = true
      · rw [if_pos hok, if_pos hok]
        simp only [List.map_cons, setReadyTag]
        exact congrArg (fun t => _ :: _ :: _ :: t)
          (ih rest (i + 1) (by simp [drainMeasure] at h ⊢; omega))
      · by_cases hmax : item.attempts + 1 ≥ item.maxAttempts
        · rw [if_neg hok, if_neg hok, if_pos hmax, if_pos hmax]
          simp only [List.map_cons, setReadyTag]
          exact congrArg (fun t => _ :: _ :: t)
            (ih rest (i + 1) (by simp [drainMeasure] at h ⊢; omega))
        · rw [if_neg hok, if_neg hok, if_neg hmax, if_neg hmax]
          simp only [List.map_cons, setReadyTag]
          exact congrArg (fun t => _ :: _ :: t)
            (ih ({ item with attempts := item.attempts + 1 } :: rest) (i + 1)
              (by simp [drainMeasure] at h ⊢; omega))

/-- **C1 (amended)**: readiness gates draining only at worker start: when
the session is not Ready at `process()` entry, nothing is attempted and
the queue (in particular its head) is left untouched, so a later drain
resumes with the same head; once a run is underway, its behaviour is
independent of any later readiness change. -/
theorem c1_readiness_checked_only_at_drain_start :
    (∀ (rate : Nat) (ip : Bool) (ok ready : Nat → Bool) (q : List QueueItem),
      process rate false ip ok ready q = ([], q)) ∧
    (∀ (rate : Nat) (ok ready1 ready2 : Nat → Bool) (i : Nat) (q : List QueueItem),
      (drainLoop rate ok ready1 i q).map setReadyTag =
      (drainLoop rate ok ready2 i q).map setReadyTag) := by
  constructor
  · intro rate ip ok ready q
    simp [process]
  · intro rate ok r1 r2 i q
    exact drainLoop_ready_irrelevant rate ok r1 r2 (drainMeasure q) q i (Nat.le_refl _)

/-- Decomposition of a drain run over an always-failing head item: it
produces exactly the closed-form failure trace (one attempt per remaining
allowance, escalating pauses, one drop callback) and only then reaches the
rest of the queue. -/
theorem drainLoop_allFail_cons (rate : Nat) (ok ready : Nat → Bool)
    (hfail : ∀ j, ok j = false) :
    ∀ (d i : Nat) (item : QueueItem) (rest : List QueueItem),
      item.maxAttempts = item.attempts + d + 1 →
      drainLoop rate ok ready i (item :: rest) =
        failTrace rate ready item.id (fmtDest item.dest) i item.attempts d ++
          drainLoop rate ok ready (i + d + 1) rest := by
  intro d
  induction d with
  | zero =>
    intro i item rest hmax
    rw [drainLoop.eq_2 rate ok ready i item rest, if_neg (by simp [hfail i]),
        if_pos (by omega)]
    simp [failTrace]
  | succ d ih =>
    intro i item rest hmax
    rw [drainLoop.eq_2 rate ok ready i item rest, if_neg (by simp [hfail i]),
        if_neg (by omega)]
    rw [ih (i + 1) { item with attempts := item.attempts + 1 } rest
      (by show item.maxAttempts = item.attempts + 1 + d + 1; omega)]
    simp only [failTrace, List.cons_append]
    have heq : i + 1 + d + 1 = i + (d + 1) + 1 := by omega
    rw [heq]

/-- An always-failing item with `d` retries left is attempted `d + 1`
times. -/
theorem attemptCount_failTrace (rate : Nat) (ready : Nat → Bool) (id : Nat)
    (dest : String) :
    ∀ (d i a : Nat), attemptCount id (failTrace rate ready id dest i a d) = d + 1 := by
  intro d
  induction d with
  | zero => intro i a; simp [failTrace, attemptCount]
  | succ d ih =>
    intro i a
    simp only [failTrace, attemptCount, List.filter_cons]
    simpa [attemptCount] using ih (i + 1) (a + 1)

/-- An always-failing item fires the failure callback exactly once. -/
theorem dropCount_failTrace (rate : Nat) (ready : Nat → Bool) (id : Nat)
    (dest : String) :
    ∀ (d i a : Nat), dropCount id (failTrace rate ready id dest i a d) = 1 := by
  intro d
  induction d with
  | zero => intro i a; simp [failTrace, dropCount]
  | succ d ih =>
    intro i a
    simp only [failTrace, dropCount, List.filter_cons]
    simpa [dropCount] using ih (i + 1) (a + 1)

/-- The pauses of an always-failing item scale linearly with the attempt
counter: `rate * (a + 1), rate * (a + 2), …` for the non-final failures. -/
theorem delaysOf_failTrace (rate : Nat) (ready : Nat → Bool) (id : Nat)
    (dest : String) :
    ∀ (d i a : Nat), delaysOf (failTrace rate ready id dest i a d) =
      (List.range d).map (fun j => rate * (a + 1 + j)) := by
  intro d
  induction d with
  | zero => intro i a; simp [failTrace, delaysOf]
  | succ d ih =>
    intro i a
    simp only [failTrace, delaysOf, List.filterMap_cons]
    rw [List.range_succ_eq_map]
    simp only [List.map_cons, List.map_map]
    have htail := ih (i + 1) (a + 1)
    simp only [delaysOf] at htail
    rw [htail]
    refine congrArg (fun t => _ :: t) ?_
    refine List.map_congr_left ?_
    intro j _
    simp only [Function.comp, Nat.succ_eq_add_one]
    ring_nf

/-- **C2**: an item whose send always fails is attempted exactly
`maxAttempts` times, pausing `rate * attempts` after each non-final
failure, then the failure callback fires exactly once and the item is
removed, the worker only then advancing to the rest of the queue. -/
theorem c2_retry_bound (rate : Nat) (ok ready : Nat → Bool) (item : QueueItem)
    (rest : List QueueItem) (hfail : ∀ j, ok j = false)
    (h0 : item.attempts = 0) (hk : 0 < item.maxAttempts) :
    drainLoop rate ok ready 0 (item :: rest) =
      failTrace rate ready item.id (fmtDest item.dest) 0 0 (item.maxAttempts - 1) ++
        drainLoop rate ok ready item.maxAttempts rest ∧
    attemptCount item.id (drainLoop rate ok ready 0 [item]) = item.maxAttempts ∧
    dropCount item.id (drainLoop rate ok ready 0 [item]) = 1 ∧
    delaysOf (drainLoop rate ok ready 0 [item]) =
      (List.range (item.maxAttempts - 1)).map (fun j => rate * (1 + j)) ∧
    (process rate true false ok ready [item]).2 = [] := by
  have e1 : item.maxAttempts - 1 + 1 = item.maxAttempts := by omega
  have hdec : ∀ rst : List QueueItem, drainLoop rate ok ready 0 (item :: rst) =
      failTrace rate ready item.id (fmtDest item.dest) 0 0 (item.maxAttempts - 1) ++
        drainLoop rate ok ready item.maxAttempts rst := by
    intro rst
    have hd := drainLoop_allFail_cons rate ok ready hfail (item.maxAttempts - 1) 0 item rst
      (by omega)
    rw [h0] at hd
    rw [hd, Nat.zero_add, e1]
  have hsingle : drainLoop rate ok ready 0 [item] =
      failTrace rate ready item.id (fmtDest item.dest) 0 0 (item.maxAttempts - 1) := by
    have hd := hdec []
    rw [drainLoop.eq_1, List.append_nil] at hd
    exact hd
  refine ⟨hdec rest, ?_, ?_, ?_, by simp [process]⟩
  · rw [hsingle, attemptCount_failTrace, e1]
  · rw [hsingle, dropCount_failTrace]
  · rw [hsingle, delaysOf_failTrace]

/-- Witness for `c2_retry_bound`: a three-allowance item that always
fails is attempted three times, paused 7 and 14 ms, dropped once. -/
theorem c2_witness :
    drainLoop 7 (fun _ => false) (fun _ => true) 0 [⟨1, "5", "oi", [], 0, 0, 3⟩] =
      failTrace 7 (fun _ => true) 1 (fmtDest "5") 0 0 2 ++
        drainLoop 7 (fun _ => false) (fun _ => true) 3 [] ∧
    attemptCount 1 (drainLoop 7 (fun _ => false) (fun _ => true) 0
      [⟨1, "5", "oi", [], 0, 0, 3⟩]) = 3 ∧
    dropCount 1 (drainLoop 7 (fun _ => false) (fun _ => true) 0
      [⟨1, "5", "oi", [], 0, 0, 3⟩]) = 1 ∧
    delaysOf (drainLoop 7 (fun _ => false) (fun _ => true) 0
      [⟨1, "5", "oi", [], 0, 0, 3⟩]) = (List.range 2).map (fun j => 7 * (1 + j)) ∧
    (process 7 true false (fun _ => false) (fun _ => true)
      [⟨1, "5", "oi", [], 0, 0, 3⟩]).2 = [] :=
  c2_retry_bound 7 (fun _ => false) (fun _ => true) ⟨1, "5", "oi", [], 0, 0, 3⟩ []
    (fun _ => rfl) rfl (by decide)

/-- **C3 (counterexample)**: the claim "every item with both fields
present is appended" is false: a present-but-empty destination string is
JS-falsy, so `enqueue` throws and appends nothing. -/
theorem c3_counterexample :
    ¬ (∀ (fresh now : Nat) (q : List QueueItem) (m : OutMessage),
        m.dest ≠ none → m.content ≠ none →
        enqueue fresh now q m = (.ok fresh, q ++ [mkQueueItem fresh now m])) := by
  intro h
  have hc := h 1 0 [] ⟨some "", some "oi", none, none⟩ (by simp) (by simp)
  have hne : enqueue 1 0 [] (⟨some "", some "oi", none, none⟩ : OutMessage) =
      (.error "Mensagem deve ter to e content", []) := rfl
  rw [hne] at hc
  simp at hc

/-- **C3 (amended)**: `enqueue` fails (throwing, queue untouched) whenever
the destination or content is absent or empty, and otherwise appends at
the tail a fresh item carrying the supplied id with a zero attempt count —
and the id stays unique provided the generator never repeats an id still
in the queue. -/
theorem c3_enqueue_validation (fresh now : Nat) (q : List QueueItem) (m : OutMessage) :
    ((jsTruthy m.dest = false ∨ jsTruthy m.content = false) →
      enqueue fresh now q m = (.error "Mensagem deve ter to e content", q)) ∧
    (jsTruthy m.dest = true → jsTruthy m.content = true →
      enqueue fresh now q m = (.ok fresh, q ++ [mkQueueItem fresh now m]) ∧
      (mkQueueItem fresh now m).id = fresh ∧
      (mkQueueItem fresh now m).attempts = 0 ∧
      (fresh ∉ q.map (fun it => it.id) → (q.map (fun it => it.id)).Nodup →
        ((q ++ [mkQueueItem fresh now m]).map (fun it => it.id)).Nodup)) := by
  constructor
  · intro h
    rcases h with h | h <;> simp [enqueue, h]
  · intro h1 h2
    refine ⟨by simp [enqueue, h1, h2], rfl, rfl, ?_⟩
    intro hfresh hnodup
    simp [List.nodup_append, hnodup, mkQueueItem, List.disjoint_singleton, hfresh]

/-- Witness for `c3_enqueue_validation`: a complete message is appended
with the generated id. -/
theorem c3_witness :
    enqueue 7 9 [] ⟨some "5521", some "ola", none, none⟩ =
      (.ok 7, [mkQueueItem 7 9 ⟨some "5521", some "ola", none, none⟩]) :=
  ((c3_enqueue_validation 7 9 [] ⟨some "5521", some "ola", none, none⟩).2
    (by decide) (by decide)).1

/-- Every item ever created by `enqueue` has a positive allowance (the
`|| 3` default never yields zero). -/
theorem defaultMaxAttempts_pos (o : Option Nat) : 0 < defaultMaxAttempts o := by
  cases o with
  | none => simp [defaultMaxAttempts]
  | some n =>
    simp only [defaultMaxAttempts]
    split <;> omega

/-- Strict queue invariant: every reachable queue state holds only items
with `attempts < maxAttempts` (fresh items start at zero with a positive
allowance; a retried head stays strictly below it; exhausted heads are
removed). -/
theorem queueEvolves_strict (q : List QueueItem) (h : QueueEvolves q) :
    ∀ it ∈ q, it.attempts < it.maxAttempts := by
  induction h with
  | init => intro it hit; exact absurd hit (List.not_mem_nil it)
  | enq fresh now m q hq ih =>
    intro it hit
    simp only [enqueue] at hit
    by_cases hv : (!jsTruthy m.dest || !jsTruthy m.content) = true
    · rw [if_pos hv] at hit
      exact ih it hit
    · rw [if_neg hv] at hit
      simp only [List.mem_append, List.mem_singleton] at hit
      rcases hit with hit | hit
      · exact ih it hit
      · rw [hit]
        show 0 < defaultMaxAttempts m.maxAttempts
        exact defaultMaxAttempts_pos m.maxAttempts
  | drain rate ok ready item rest hq ih =>
    intro it hit
    simp only [drainStep] at hit
    by_cases hok : ok = true
    · rw [if_pos hok] at hit
      exact ih it (List.mem_cons_of_mem item hit)
    · rw [if_neg hok] at hit
      by_cases hmax : item.attempts + 1 ≥ item.maxAttempts
      · rw [if_pos hmax] at hit
        exact ih it (List.mem_cons_of_mem item hit)
      · rw [if_neg hmax] at hit
        rcases List.mem_cons.mp hit with heq | hmem
        · rw [heq]
          show item.attempts + 1 < item.maxAttempts
          omega
        · exact ih it (List.mem_cons_of_mem item hmem)

/-- **C5**: in every reachable queue state, every queued item satisfies
`attempts ≤ maxAttempts`. -/
theorem c5_attempts_le_maxAttempts (q : List QueueItem) (h : QueueEvolves q) :
    ∀ it ∈ q, it.attempts ≤ it.maxAttempts :=
  fun it hit => Nat.le_of_lt (queueEvolves_strict q h it hit)

/-- Witness for `c5_attempts_le_maxAttempts` on a freshly enqueued item. -/
theorem c5_witness :
    (mkQueueItem 1 0 ⟨some "5521", some "ola", none, none⟩).attempts ≤
      (mkQueueItem 1 0 ⟨some "5521", some "ola", none, none⟩).maxAttempts :=
  c5_attempts_le_maxAttempts (enqueue 1 0 [] ⟨some "5521", some "ola", none, none⟩).2
    (QueueEvolves.enq 1 0 ⟨some "5521", some "ola", none, none⟩ [] QueueEvolves.init)
    (mkQueueItem 1 0 ⟨some "5521", some "ola", none, none⟩) (by decide)

end Theorems
